import Mathlib

/-!
Verification of the project-detection core of a disk-reclamation tool.

The definitions below are a shallow embedding of the Rust source:
`src/core/project.rs` (data model, marker matching, git status, safety
check, totals) and `src/tui/mod.rs` (batch deletion tally).  Machine
integers are modelled as `Nat`, with an explicit `% 2 ^ w` exactly where
the source performs a truncating cast.  `SystemTime` values are modelled
as seconds since an epoch; the current time is passed explicitly where
the source consults the clock.
-/

/-- The ecosystem of a detected project (`ProjectKind` in the source);
`Custom` carries the `u32` extension tag as a `Nat`. -/
inductive ProjectKind where
  | NodeNpm | NodeYarn | NodePnpm | NodeBun | Deno
  | Rust | Go | Cpp | C | Zig
  | JavaMaven | JavaGradle | Kotlin | Scala | Clojure
  | DotNet | FSharp
  | PythonPip | PythonPoetry | PythonPipenv | PythonConda | PythonUv
  | RubyBundler | RubyRails
  | PhpComposer | PhpLaravel
  | SwiftSpm | SwiftXcode | Flutter | ReactNative | Android
  | Elixir | Haskell | OCaml | Julia | R | Lua | Perl
  | Terraform | Pulumi
  | Docker
  | Custom (tag : Nat)
  deriving DecidableEq, Repr

/-- Modelled from the spec: the `Artifact` struct itself is defined in a
source file not provided (`src/core/mod.rs` re-exports it); per the spec an
Artifact is "a cleanable sub-path under a Project root with a name, byte
size, file count".  Only `size` is consulted by the code under
verification. -/
structure Artifact where
  name : String
  size : Nat
  file_count : Nat
  deriving DecidableEq, Repr

/-- Git repository status for safety checks (`GitStatus` in the source).
`SystemTime` is seconds since the epoch; `PathBuf` is a `String`. -/
structure GitStatus where
  is_repo : Bool
  has_uncommitted : Bool
  has_untracked : Bool
  has_stashed : Bool
  branch : Option String
  remote : Option String
  last_commit : Option Nat
  dirty_paths : List String
  deriving DecidableEq, Repr

/-- `GitStatus::is_clean` from the source. -/
def GitStatus.is_clean (s : GitStatus) : Bool :=
  s.is_repo && !s.has_uncommitted && !s.has_untracked

/-- Warning reasons for cleaning operations (`CleanWarning` in the source). -/
inductive CleanWarning where
  | UncommittedChanges (paths : List String)
  | UntrackedFiles
  | NotGitRepo
  | RecentlyModified (age_days : Nat)
  | NoLockfile
  deriving DecidableEq, Repr

/-- Blocking reasons for cleaning operations (`CleanBlock` in the source). -/
inductive CleanBlock where
  | LockFilePresent (path : String)
  | ProcessRunning (pid : Nat) (name : String)
  | UserProtected
  deriving DecidableEq, Repr

/-- Safety status for cleaning operations (`CleanSafety` in the source). -/
inductive CleanSafety where
  | Safe
  | Warning (w : CleanWarning)
  | Blocked (b : CleanBlock)
  deriving DecidableEq, Repr

/-- A detected development project (`Project` in the source).
`ProjectId` is the 64-bit fingerprint as a `Nat`; `last_modified` is
seconds since the epoch. -/
structure Project where
  id : Nat
  kind : ProjectKind
  root : String
  name : String
  last_modified : Option Nat
  git_status : Option GitStatus
  artifacts : List Artifact
  total_size : Nat
  cleanable_size : Nat
  deriving DecidableEq, Repr

/-- `Project::safety_check` from the source.  `now` is the clock value at
which the check runs: `modified.elapsed()` succeeds with `now - modified`
exactly when `modified ≤ now` (otherwise `SystemTime::elapsed` errors and
the source skips the age check); `days as u32` is the truncating cast
`% 2 ^ 32`. -/
def Project.safety_check (p : Project) (now : Nat) : CleanSafety :=
  match p.git_status with
  | some status =>
    if status.has_uncommitted then
      CleanSafety.Warning (CleanWarning.UncommittedChanges status.dirty_paths)
    else if status.has_untracked then
      CleanSafety.Warning CleanWarning.UntrackedFiles
    else
      match p.last_modified with
      | some modified =>
        if modified ≤ now then
          let days := (now - modified) / 86400
          if days < 7 then
            CleanSafety.Warning (CleanWarning.RecentlyModified (days % 2 ^ 32))
          else
            CleanSafety.Safe
        else
          CleanSafety.Safe
      | none => CleanSafety.Safe
  | none => CleanSafety.Warning CleanWarning.NotGitRepo

/-- `Project::calculate_totals` from the source, functionally: returns the
project with `total_size` and `cleanable_size` updated. -/
def Project.calculate_totals (p : Project) : Project :=
  ⟨p.id, p.kind, p.root, p.name, p.last_modified, p.git_status, p.artifacts,
    (p.artifacts.map Artifact.size).sum, (p.artifacts.map Artifact.size).sum⟩

/-- `true` exactly when a `CleanSafety` is `Safe` or a `Warning` other than
`NoLockfile` — i.e. neither `Blocked` nor the missing-lockfile warning. -/
def CleanSafety.safeOrWarningNotNoLockfile : CleanSafety → Bool
  | CleanSafety.Safe => true
  | CleanSafety.Warning CleanWarning.NoLockfile => false
  | CleanSafety.Warning _ => true
  | CleanSafety.Blocked _ => false

/-- C1: with no GitStatus attached, `safety_check` warns "not a git
repository"; with a GitStatus whose `has_uncommitted` is true it warns
"uncommitted changes" carrying the status's `dirty_paths`, regardless of
`has_untracked` (precedence over the untracked-files warning). -/
theorem safety_check_no_git_and_uncommitted (p : Project) (now : Nat) (s : GitStatus) :
    (p.git_status = none →
      p.safety_check now = CleanSafety.Warning CleanWarning.NotGitRepo) ∧
    (p.git_status = some s → s.has_uncommitted = true →
      p.safety_check now =
        CleanSafety.Warning (CleanWarning.UncommittedChanges s.dirty_paths)) := by
  constructor
  · intro h
    simp [Project.safety_check, h]
  · intro h hu
    simp [Project.safety_check, h, hu]

theorem safety_check_no_git_and_uncommitted_witness :
    (Project.mk 1 ProjectKind.Rust "/r" "r" none none [] 0 0).safety_check 0 =
      CleanSafety.Warning CleanWarning.NotGitRepo ∧
    (Project.mk 2 ProjectKind.Rust "/s" "s" none
        (some ⟨true, true, true, false, none, none, none, ["a.rs"]⟩) [] 0 0).safety_check 0 =
      CleanSafety.Warning (CleanWarning.UncommittedChanges ["a.rs"]) :=
  ⟨(safety_check_no_git_and_uncommitted _ 0
      ⟨true, true, true, false, none, none, none, ["a.rs"]⟩).1 rfl,
   (safety_check_no_git_and_uncommitted _ 0
      ⟨true, true, true, false, none, none, none, ["a.rs"]⟩).2 rfl rfl⟩

/-- C2: `safety_check` always returns `Safe` or a `Warning`; it never
returns `Blocked` and never the `NoLockfile` warning. -/
theorem safety_check_never_blocked_or_nolockfile (p : Project) (now : Nat) :
    (p.safety_check now).safeOrWarningNotNoLockfile = true := by
  unfold Project.safety_check
  cases p.git_status with
  | none => rfl
  | some s =>
    by_cases hu : s.has_uncommitted
    · simp [hu, CleanSafety.safeOrWarningNotNoLockfile]
    · by_cases ht : s.has_untracked
      · simp [hu, ht, CleanSafety.safeOrWarningNotNoLockfile]
      · simp only [hu, ht, Bool.false_eq_true, if_false]
        cases p.last_modified with
        | none => rfl
        | some m =>
          by_cases hm : m ≤ now
          · by_cases hd : (now - m) / 86400 < 7
            · simp [hm, hd, CleanSafety.safeOrWarningNotNoLockfile]
            · simp [hm, hd, CleanSafety.safeOrWarningNotNoLockfile]
          · simp [hm, CleanSafety.safeOrWarningNotNoLockfile]

/-- C3: after `calculate_totals`, `total_size` is the sum of the artifacts'
sizes and `cleanable_size` equals `total_size`. -/
theorem calculate_totals_sum (p : Project) :
    p.calculate_totals.total_size =
      (p.calculate_totals.artifacts.map Artifact.size).sum ∧
    p.calculate_totals.cleanable_size = p.calculate_totals.total_size :=
  ⟨rfl, rfl⟩

/-- C10: `is_clean` is true exactly when `is_repo` holds and both
`has_uncommitted` and `has_untracked` are false; the remaining fields
(`has_stashed`, `branch`, `remote`, `last_commit`, `dirty_paths`) have no
effect. -/
theorem is_clean_spec (s t : GitStatus)
    (hr : s.is_repo = t.is_repo)
    (hu : s.has_uncommitted = t.has_uncommitted)
    (ht : s.has_untracked = t.has_untracked) :
    s.is_clean = t.is_clean ∧
    (s.is_clean = true ↔
      s.is_repo = true ∧ s.has_uncommitted = false ∧ s.has_untracked = false) := by
  constructor
  · simp [GitStatus.is_clean, hr, hu, ht]
  · simp [GitStatus.is_clean, and_assoc]

theorem is_clean_spec_witness :
    GitStatus.is_clean ⟨true, false, false, true, some "main", none, some 5, []⟩ =
      GitStatus.is_clean ⟨true, false, false, false, none, some "url", none, ["x"]⟩ ∧
    (GitStatus.is_clean ⟨true, false, false, true, some "main", none, some 5, []⟩ = true ↔
      True ∧ (false : Bool) = false ∧ (false : Bool) = false) := by
  have h := is_clean_spec
    ⟨true, false, false, true, some "main", none, some 5, []⟩
    ⟨true, false, false, false, none, some "url", none, ["x"]⟩
    rfl rfl rfl
  exact ⟨h.1, by simpa using h.2⟩

/-- C9: with a clean-of-changes GitStatus attached (`has_uncommitted` and
`has_untracked` both false), `safety_check` warns `RecentlyModified` with
`age_days = (now - modified) / 86400` exactly when `last_modified` is
present, not in the future, and less than 7 whole days old; in every other
case (absent, at least 7 days old, or in the future) it returns `Safe`. -/
theorem safety_check_recently_modified (p : Project) (s : GitStatus) (now : Nat)
    (hg : p.git_status = some s)
    (hu : s.has_uncommitted = false)
    (ht : s.has_untracked = false) :
    p.safety_check now =
      match p.last_modified with
      | some modified =>
        if modified ≤ now ∧ (now - modified) / 86400 < 7 then
          CleanSafety.Warning (CleanWarning.RecentlyModified ((now - modified) / 86400))
        else
          CleanSafety.Safe
      | none => CleanSafety.Safe := by
  unfold Project.safety_check
  rw [hg]
  simp only [hu, ht, Bool.false_eq_true, if_false]
  cases p.last_modified with
  | none => rfl
  | some m =>
    by_cases hm : m ≤ now
    · by_cases hd : (now - m) / 86400 < 7
      · simp only [hm, hd, if_true, and_self, if_pos, true_and]
        rw [Nat.mod_eq_of_lt (lt_of_lt_of_le hd (by norm_num))]
      · simp [hm, hd]
    · simp [hm]

theorem safety_check_recently_modified_witness :
    (Project.mk 3 ProjectKind.NodeNpm "/n" "n" (some 0)
        (some ⟨true, false, false, false, none, none, none, []⟩) [] 0 0).safety_check 259200 =
      CleanSafety.Warning (CleanWarning.RecentlyModified 3) := by
  have h := safety_check_recently_modified
    (Project.mk 3 ProjectKind.NodeNpm "/n" "n" (some 0)
      (some ⟨true, false, false, false, none, none, none, []⟩) [] 0 0)
    ⟨true, false, false, false, none, none, none, []⟩ 259200 rfl rfl rfl
  rw [h]
  norm_num

/-- C8 counterexample: the claim asserts the result is independent of when
the check is performed, but a project modified at time 0 yields
`RecentlyModified` when checked at time 0 and `Safe` when checked 7 days
later, with `git_status` and `last_modified` unchanged. -/
theorem safety_check_time_dependent :
    ((Project.mk 4 ProjectKind.Rust "/p" "p" (some 0)
        (some ⟨true, false, false, false, none, none, none, []⟩) [] 0 0).safety_check 0 ==
     (Project.mk 4 ProjectKind.Rust "/p" "p" (some 0)
        (some ⟨true, false, false, false, none, none, none, []⟩) [] 0 0).safety_check 604800) =
      false := by
  decide

/-- C8 amended: `safety_check` is a pure function of `git_status`,
`last_modified` and the evaluation time: two projects agreeing on
`git_status` and `last_modified`, checked at the same instant, yield the
same result, independent of all other fields. -/
theorem safety_check_pure_in_git_and_mtime (p q : Project) (now : Nat)
    (hg : p.git_status = q.git_status)
    (hm : p.last_modified = q.last_modified) :
    p.safety_check now = q.safety_check now := by
  unfold Project.safety_check
  rw [hg, hm]

theorem safety_check_pure_in_git_and_mtime_witness :
    (Project.mk 5 ProjectKind.Rust "/a" "a" (some 10) none [] 0 0).safety_check 99 =
    (Project.mk 6 ProjectKind.Go "/b" "b" (some 10) none [⟨"target", 7, 1⟩] 7 7).safety_check 99 :=
  safety_check_pure_in_git_and_mtime
    (Project.mk 5 ProjectKind.Rust "/a" "a" (some 10) none [] 0 0)
    (Project.mk 6 ProjectKind.Go "/b" "b" (some 10) none [⟨"target", 7, 1⟩] 7 7)
    99 rfl rfl

/-- The filesystem view that `MarkerKind::matches` consults for one
candidate directory: the final component of the directory's own path
(`Path::file_name`, `none` for a root path), the names of regular files
directly inside it, and the names of its subdirectories.  `join(name)`
followed by `is_file` / `is_dir` / `exists` is membership in `files` /
`subdirs` / either. -/
structure DirView where
  file_name : Option String
  files : List String
  subdirs : List String
  deriving DecidableEq, Repr

/-- The suffix after the last `.` of a list of characters, if any dot is
present. -/
def afterLastDot : List Char → Option (List Char)
  | [] => none
  | c :: rest =>
    match afterLastDot rest with
    | some e => some e
    | none => if c = '.' then some rest else none

/-- `std::path::Path::extension` on a final path component: the portion of
the file name after its last `.`; `none` when there is no `.`, or when the
only `.` is the leading character (dotfiles have no extension). -/
def rustExtension (name : String) : Option String :=
  match name.toList with
  | [] => none
  | _ :: rest =>
    match afterLastDot rest with
    | some e => some (String.mk e)
    | none => none

/-- Marker shapes that identify a project (`MarkerKind` in the source). -/
inductive MarkerKind where
  | File (name : String)
  | Directory (name : String)
  | Extension (ext : String)
  | AllOf (files : List String)
  | AnyOf (files : List String)
  deriving DecidableEq, Repr

/-- `MarkerKind::matches` from the source.  Note the `Extension` arm of the
source inspects `path.extension()` — the extension of the candidate
directory's own path — not the contents of the directory. -/
def MarkerKind.matches (m : MarkerKind) (d : DirView) : Bool :=
  match m with
  | MarkerKind.File name => d.files.contains name
  | MarkerKind.Directory name => d.subdirs.contains name
  | MarkerKind.Extension ext =>
    match d.file_name with
    | some n =>
      match rustExtension n with
      | some e => e == ext
      | none => false
    | none => false
  | MarkerKind.AllOf fs => fs.all (fun f => d.files.contains f || d.subdirs.contains f)
  | MarkerKind.AnyOf fs => fs.any (fun f => d.files.contains f || d.subdirs.contains f)

/-- The matching predicate as the claim words it — identical to the source
except for `Extension`, which the claim reads as "a file with extension
`ext` is present in the directory". -/
def MarkerKind.claimedMatches (m : MarkerKind) (d : DirView) : Bool :=
  match m with
  | MarkerKind.File name => d.files.contains name
  | MarkerKind.Directory name => d.subdirs.contains name
  | MarkerKind.Extension ext => d.files.any (fun f => rustExtension f == some ext)
  | MarkerKind.AllOf fs => fs.all (fun f => d.files.contains f || d.subdirs.contains f)
  | MarkerKind.AnyOf fs => fs.any (fun f => d.files.contains f || d.subdirs.contains f)

/-- The matching predicate as amended: the `Extension` arm tests the
candidate directory's own path extension, as the source does. -/
def MarkerKind.amendedMatches (m : MarkerKind) (d : DirView) : Bool :=
  match m with
  | MarkerKind.File name => d.files.contains name
  | MarkerKind.Directory name => d.subdirs.contains name
  | MarkerKind.Extension ext =>
    match d.file_name with
    | some n => rustExtension n == some ext
    | none => false
  | MarkerKind.AllOf fs => fs.all (fun f => d.files.contains f || d.subdirs.contains f)
  | MarkerKind.AnyOf fs => fs.any (fun f => d.files.contains f || d.subdirs.contains f)

/-- C4 counterexample: a directory named `mydir` containing the file
`main.rs` — the claim's reading of `Extension "rs"` says it matches, but
the source tests the directory's own path extension and returns false. -/
theorem marker_extension_counterexample :
    MarkerKind.matches (MarkerKind.Extension "rs") ⟨some "mydir", ["main.rs"], []⟩ = false ∧
    MarkerKind.claimedMatches (MarkerKind.Extension "rs") ⟨some "mydir", ["main.rs"], []⟩
      = true := by
  constructor <;> rfl

/-- C4 amended: `matches` agrees with the claimed description on every
shape once the `Extension` clause is read as "the candidate directory's
own path has extension `ext`". -/
theorem marker_matches_amended (m : MarkerKind) (d : DirView) :
    m.matches d = m.amendedMatches d := by
  obtain ⟨fn, fs, ds⟩ := d
  cases m with
  | Extension ext =>
    cases fn with
    | none => rfl
    | some n =>
      simp only [MarkerKind.matches, MarkerKind.amendedMatches]
      cases h : rustExtension n <;> simp only [h] <;> rfl
  | _ => rfl

/-- A marker binding (`ProjectMarker` in the source): an indicator shape,
the project kind it identifies, and a `u8` priority (higher wins). -/
structure ProjectMarker where
  indicator : MarkerKind
  kind : ProjectKind
  priority : Nat
  deriving DecidableEq, Repr

/-- Modelled from the spec: the Plugin Registry's resolution routine is in
a source file not provided (only the `ProjectMarker` data it consumes is).
Per the spec (§4.2): "evaluate every marker; among all matches, pick the
highest priority; ties broken by catalog registration order (first wins)".
The catalog list is in registration order; a later marker replaces the
current best only when its priority is strictly higher. -/
def resolveMarker (catalog : List ProjectMarker) (d : DirView) : Option ProjectMarker :=
  catalog.foldl
    (fun best m =>
      if m.indicator.matches d then
        match best with
        | none => some m
        | some b => if b.priority < m.priority then some m else some b
      else best)
    none

/-- C5: for two markers that both match a directory, resolution over the
two-marker catalog picks the kind of the strictly-higher-priority marker in
either registration order, and picks the first-registered marker's kind on
a priority tie. -/
theorem resolve_priority_monotonic (m1 m2 : ProjectMarker) (d : DirView)
    (h1 : m1.indicator.matches d = true)
    (h2 : m2.indicator.matches d = true) :
    (m2.priority < m1.priority →
      (resolveMarker [m1, m2] d).map ProjectMarker.kind = some m1.kind ∧
      (resolveMarker [m2, m1] d).map ProjectMarker.kind = some m1.kind) ∧
    (m1.priority = m2.priority →
      (resolveMarker [m1, m2] d).map ProjectMarker.kind = some m1.kind) := by
  constructor
  · intro hlt
    have hn : ¬ m1.priority < m2.priority := Nat.lt_asymm hlt
    constructor
    · simp [resolveMarker, h1, h2, hn]
    · simp [resolveMarker, h1, h2, hlt]
  · intro heq
    have hn : ¬ m1.priority < m2.priority := by omega
    simp [resolveMarker, h1, h2, hn]

theorem resolve_priority_monotonic_witness :
    (resolveMarker
        [⟨MarkerKind.File "Cargo.toml", ProjectKind.Rust, 10⟩,
         ⟨MarkerKind.File "package.json", ProjectKind.NodeNpm, 8⟩]
        ⟨some "proj", ["Cargo.toml", "package.json"], []⟩).map ProjectMarker.kind
      = some ProjectKind.Rust ∧
    (resolveMarker
        [⟨MarkerKind.File "package.json", ProjectKind.NodeNpm, 8⟩,
         ⟨MarkerKind.File "Cargo.toml", ProjectKind.Rust, 10⟩]
        ⟨some "proj", ["Cargo.toml", "package.json"], []⟩).map ProjectMarker.kind
      = some ProjectKind.Rust :=
  (resolve_priority_monotonic
    ⟨MarkerKind.File "Cargo.toml", ProjectKind.Rust, 10⟩
    ⟨MarkerKind.File "package.json", ProjectKind.NodeNpm, 8⟩
    ⟨some "proj", ["Cargo.toml", "package.json"], []⟩
    (by rfl) (by rfl)).1 (by norm_num)

/-- One unit of work for the batch deletion in `delete_items`
(`src/tui/mod.rs`): `size` is the byte size measured for the item before
the attempt, and `succeeds` is the outcome of the external per-item action
(the deletion primitive, trash or permanent, or the item's clean command) —
both are effects of the environment, abstracted per item. -/
structure DeleteItem where
  size : Nat
  succeeds : Bool
  deriving DecidableEq, Repr

/-- The loop body of `delete_items`: on success increment the success
count and add the item's size to the bytes freed; on failure increment the
failure count. -/
def delete_step (acc : Nat × Nat × Nat) (it : DeleteItem) : Nat × Nat × Nat :=
  if it.succeeds then (acc.1 + 1, acc.2.1, acc.2.2 + it.size)
  else (acc.1, acc.2.1 + 1, acc.2.2)

/-- `delete_items` from the source, as `(success, failed, freed)`: every
item is visited in order, starting from `(0, 0, 0)`. -/
def delete_items (items : List DeleteItem) : Nat × Nat × Nat :=
  items.foldl delete_step (0, 0, 0)

theorem delete_step_foldl (l : List DeleteItem) (s f fr : Nat) :
    (l.foldl delete_step (s, f, fr)).1 = s + (l.filter DeleteItem.succeeds).length ∧
    (l.foldl delete_step (s, f, fr)).2.1 = f + (l.filter (fun it => !it.succeeds)).length ∧
    (l.foldl delete_step (s, f, fr)).2.2 =
      fr + ((l.filter DeleteItem.succeeds).map DeleteItem.size).sum := by
  induction l generalizing s f fr with
  | nil => simp
  | cons h t ih =>
    by_cases hs : h.succeeds
    · obtain ⟨e1, e2, e3⟩ := ih (s + 1) f (fr + h.size)
      simp [delete_step, hs, List.filter_cons, e1, e2, e3]
      all_goals omega
    · obtain ⟨e1, e2, e3⟩ := ih s (f + 1) fr
      simp [delete_step, hs, List.filter_cons, e1, e2, e3]
      all_goals omega

/-- C6: the batch deletion processes every item — the success count is the
number of items whose action succeeded, the failure count the number whose
action failed, the two together count the whole batch, and the bytes freed
are the total size of the successful items. -/
theorem delete_items_tally (items : List DeleteItem) :
    (delete_items items).1 = (items.filter DeleteItem.succeeds).length ∧
    (delete_items items).2.1 = (items.filter (fun it => !it.succeeds)).length ∧
    (delete_items items).1 + (delete_items items).2.1 = items.length ∧
    (delete_items items).2.2 =
      ((items.filter DeleteItem.succeeds).map DeleteItem.size).sum := by
  obtain ⟨e1, e2, e3⟩ := delete_step_foldl items 0 0 0
  refine ⟨by simpa using e1, by simpa using e2, ?_, by simpa using e3⟩
  rw [delete_items] at *
  rw [e1, e2]
  simpa using (List.length_eq_length_filter_add DeleteItem.succeeds (l := items)).symm

/-- A 64-bit hasher standing in for `std::collections::hash_map::DefaultHasher`
(SipHash-1-3 keyed with process-fixed keys): within one run it is a pure
function of the hashed bytes into the 64-bit range.  The claims about
`ProjectId` depend only on that purity and range, so the mixing function is
a concrete pure fold truncated to `2 ^ 64` at every step. -/
def hashBytes (bytes : List Nat) : Nat :=
  bytes.foldl (fun h b => ((h ^^^ b % 256) * 1099511628211) % 2 ^ 64) 14695981039346656037

/-- The 64-bit project fingerprint (`ProjectId` in the source). -/
structure ProjectId where
  val : Nat
  deriving DecidableEq, Repr

/-- `ProjectId::from_path` from the source: feed the path's bytes to a
fresh default hasher and take the 64-bit digest. -/
def ProjectId.from_path (path : List Nat) : ProjectId :=
  ⟨hashBytes path⟩

theorem hashBytes_lt (bytes : List Nat) : hashBytes bytes < 2 ^ 64 := by
  have key : ∀ (l : List Nat) (h : Nat), h < 2 ^ 64 →
      l.foldl (fun h b => ((h ^^^ b % 256) * 1099511628211) % 2 ^ 64) h < 2 ^ 64 := by
    intro l
    induction l with
    | nil => intro h hh; simpa using hh
    | cons b t ih =>
      intro h hh
      exact ih _ (Nat.mod_lt _ (by norm_num))
  exact key bytes 14695981039346656037 (by norm_num)

/-- C7: deriving a `ProjectId` is deterministic within one run — the same
path hashes to the same id — and the id lies in the 64-bit range. -/
theorem project_id_from_path_deterministic (p q : List Nat) (h : p = q) :
    ProjectId.from_path p = ProjectId.from_path q ∧
    (ProjectId.from_path p).val < 2 ^ 64 :=
  ⟨h ▸ rfl, hashBytes_lt p⟩

theorem project_id_from_path_deterministic_witness :
    ProjectId.from_path [47, 104, 111, 109, 101] = ProjectId.from_path [47, 104, 111, 109, 101] ∧
    (ProjectId.from_path [47, 104, 111, 109, 101]).val < 2 ^ 64 :=
  project_id_from_path_deterministic [47, 104, 111, 109, 101] [47, 104, 111, 109, 101] rfl
